import Mathlib

/-!
Shallow embedding of the multi-agent fraud scoring engine
(`utils/weighted_scoring.py` and `langgraph/parallel_fraud_graph.py`).

Scores are modelled as rationals; the outlier computation, which uses the
real exponential (sigmoid) and square root (standard deviation), is
modelled over the reals.  `round(x, 3)` from Python is modelled as
`round (x * 1000) / 1000`, which coincides with Python off exact ties.
-/

namespace WeightedScoring

/-- One row of a scoring agent result set: the columns of the result
DataFrames that the aggregation engine reads (`pharmacy_number`,
`fraud_score`, `reason`) plus the remaining columns as a string map
(`detail`), from which `pharmacy_name` and friends are looked up. -/
structure Finding where
  pharmacy_number : String
  fraud_score : ℚ
  reason : String
  detail : List (String × String)
deriving Repr, DecidableEq

/-- One row of the raw claims dataset: the columns the engine reads
(`pharmacy_number`, `coverage_type`, `copay_cost`, `oop_cost`). -/
structure RawRecord where
  pharmacy_number : String
  coverage_type : String
  copay_cost : ℚ
  oop_cost : ℚ
deriving Repr, DecidableEq

/-- The raw dataset: a list of rows. -/
abbrev Dataset := List RawRecord

/-- Per-agent results: agent name to its finding list, in registration
order (a Python dict preserves insertion order). -/
abbrev AgentResults := List (String × List Finding)

/-- Embeds `self.default_weights` from `WeightedScoringSystem.__init__`. -/
def default_weights : List (String × ℚ) :=
  [("coverage_agent", 1/4), ("patient_flip_agent", 1/5),
   ("high_dollar_agent", 1/5), ("rejection_agent", 1/5),
   ("network_agent", 3/20)]

/-- Embeds `dict.update` for one key-value pair: overwrite in place if the key
exists, otherwise append at the end (Python dict insertion order). -/
def dictInsert (cur : List (String × ℚ)) (kv : String × ℚ) :
    List (String × ℚ) :=
  if cur.any (fun p => p.1 == kv.1) then
    cur.map (fun p => if p.1 == kv.1 then (p.1, kv.2) else p)
  else cur ++ [kv]

/-- Embeds `self.current_weights.update(new_weights)`. -/
def dictUpdate (cur new : List (String × ℚ)) : List (String × ℚ) :=
  new.foldl dictInsert cur

/-- Sum of the values of a weight dict (`sum(d.values())`). -/
def sumValues (l : List (String × ℚ)) : ℚ :=
  (l.map Prod.snd).sum

/-- Embeds `WeightedScoringSystem.update_weights`: merge the overrides into the
current vector, then divide every entry by the total when the total is
positive. -/
def update_weights (cur new : List (String × ℚ)) : List (String × ℚ) :=
  let merged := dictUpdate cur new
  let total := sumValues merged
  if 0 < total then merged.map (fun p => (p.1, p.2 / total)) else merged

/-- Embeds `WeightedScoringSystem._calculate_consistency_score`, on the multiset
of this pharmacy's agent scores. -/
def calculate_consistency_score (scores : List ℚ) : ℚ :=
  if scores.length < 2 then 1/2
  else
    let high_scores := scores.filter (fun s => 8/10 ≤ s)
    let low_scores := scores.filter (fun s => s < 4/10)
    if high_scores ≠ [] ∧ low_scores ≠ [] then 3/10
    else if high_scores ≠ [] then 9/10
    else if low_scores ≠ [] then 1/10
    else 1/2

/-- Embeds `np.mean` over a list of rationals. -/
def mean (l : List ℚ) : ℚ := l.sum / l.length

/-- Population variance, the square of `np.std` (ddof 0). -/
def variance (l : List ℚ) : ℚ :=
  ((l.map (fun x => (x - mean l) ^ 2)).sum) / l.length

/-- Embeds `np.std` (population standard deviation), as a real number. -/
noncomputable def std (l : List ℚ) : ℝ :=
  Real.sqrt ((variance l : ℚ) : ℝ)

/-- The sigmoid `1 / (1 + exp (-z))` from `_calculate_outlier_score`. -/
noncomputable def sigmoid (z : ℝ) : ℝ := 1 / (1 + Real.exp (-z))

/-- The pooled multiset of every fraud score of every agent
(`all_scores` in `_calculate_outlier_score`). -/
def allScores (agent_results : AgentResults) : List ℚ :=
  agent_results.flatMap (fun r => r.2.map (fun f => f.fraud_score))

/-- The first finding an agent reports for a pharmacy
(`results_df[results_df[...] == pharmacy_number].iloc[0]`). -/
def findingFor (p : String) (findings : List Finding) : Option Finding :=
  findings.find? (fun f => f.pharmacy_number == p)

/-- Embeds `pharmacy_scores` collected in `_calculate_single_pharmacy_score`:
for each agent that reported a finding for this pharmacy, the fraud
score of its first such finding, keyed by agent name. -/
def pharmacyScores (p : String) (agent_results : AgentResults) :
    List (String × ℚ) :=
  agent_results.filterMap (fun r =>
    (findingFor p r.2).map (fun f => (r.1, f.fraud_score)))

/-- Embeds `pharmacy_reasons` collected in `_calculate_single_pharmacy_score`. -/
def pharmacyReasons (p : String) (agent_results : AgentResults) :
    List (String × String) :=
  agent_results.filterMap (fun r =>
    (findingFor p r.2).map (fun f => (r.1, f.reason)))

/-- Embeds `WeightedScoringSystem._calculate_outlier_score`.  The source tests
`std == 0`; since the standard deviation is the square root of the
nonnegative variance, that test holds exactly when the variance is 0,
which is what the branch below checks (decidably, over the rationals). -/
noncomputable def calculate_outlier_score (p : String)
    (agent_results : AgentResults) : ℝ :=
  let all_scores := allScores agent_results
  if all_scores = [] then 1/2
  else if variance all_scores = 0 then 1/2
  else
    let pharmacy_scores := (pharmacyScores p agent_results).map Prod.snd
    if pharmacy_scores = [] then 1/2
    else
      let z : ℝ := ((mean pharmacy_scores - mean all_scores : ℚ) : ℝ) /
        std all_scores
      sigmoid z

/-- The weighted sum computed by the loop at lines 136-142 of
`_calculate_single_pharmacy_score`: each reporting agent contributes its
score times `self.current_weights.get(agent_name, 0.0)`. -/
def weightedComponent (weights : List (String × ℚ))
    (scores : List (String × ℚ)) : ℚ :=
  (scores.map (fun r => r.2 * ((weights.lookup r.1).getD 0))).sum

/-- The final aggregated score:
`weighted_score * 0.7 + consistency_score * 0.2 + outlier_score * 0.1`. -/
noncomputable def final_score_val (weights : List (String × ℚ))
    (p : String) (agent_results : AgentResults) : ℝ :=
  ((weightedComponent weights (pharmacyScores p agent_results) : ℚ) : ℝ) * (7/10)
    + ((calculate_consistency_score
        ((pharmacyScores p agent_results).map Prod.snd) : ℚ) : ℝ) * (2/10)
    + calculate_outlier_score p agent_results * (1/10)

open Classical in
/-- Embeds `WeightedScoringSystem._determine_risk_level`, applied to the
(unrounded) final score. -/
noncomputable def determine_risk_level (score : ℝ) : String :=
  if 8/10 ≤ score then "HIGH RISK"
  else if 6/10 ≤ score then "MEDIUM RISK"
  else if 4/10 ≤ score then "LOW RISK"
  else "VERY LOW RISK"

/-- Python `round(x, 3)` on a real-valued score (round half toward even
coincides with round half up off exact ties; the embedding uses the
latter). -/
noncomputable def round3 (x : ℝ) : ℚ :=
  ((round (x * 1000) : ℤ) : ℚ) / 1000

/-- Python `round(q, 3)` on a rational score. -/
def roundQ3 (q : ℚ) : ℚ :=
  ((round (q * 1000) : ℤ) : ℚ) / 1000

/-- The `"{:.1f}"` format of a nonnegative percentage. -/
def fmt1 (q : ℚ) : String :=
  let n : ℤ := round (q * 10)
  toString (n / 10) ++ "." ++ toString (n % 10)

/-- Embeds `WeightedScoringSystem._generate_fraud_explanation`. -/
def generate_fraud_explanation (scores : List (String × ℚ))
    (reasons : List (String × String)) (transactions : List RawRecord) :
    String :=
  let high_risk_agents := (scores.filter (fun r => 8/10 ≤ r.2)).map Prod.fst
  let medium_risk_agents :=
    (scores.filter (fun r => 6/10 ≤ r.2 ∧ r.2 < 8/10)).map Prod.fst
  let highPart : List String :=
    if high_risk_agents ≠ [] then
      ["🚨 HIGH RISK from " ++ toString high_risk_agents.length
        ++ " agents: " ++ String.intercalate ", "
          (high_risk_agents.map (fun a => (reasons.lookup a).getD "High risk"))]
    else []
  let mediumPart : List String :=
    if medium_risk_agents ≠ [] then
      ["⚠️ MEDIUM RISK from " ++ toString medium_risk_agents.length
        ++ " agents: " ++ String.intercalate ", "
          (medium_risk_agents.map (fun a => (reasons.lookup a).getD "Medium risk"))]
    else []
  let transactionPart : List String :=
    if transactions ≠ [] then
      let total_claims := transactions.length
      let cash_claims := (transactions.filter (fun t =>
        t.coverage_type == "Cash" || t.coverage_type == "Not Covered")).length
      let high_dollar_claims := (transactions.filter (fun t =>
        200 < t.copay_cost ∨ 500 < t.oop_cost)).length
      let cashPart : List String :=
        if 0 < cash_claims then
          [fmt1 ((cash_claims : ℚ) / (total_claims : ℚ) * 100)
            ++ "% cash/not covered claims"]
        else []
      let dollarPart : List String :=
        if 0 < high_dollar_claims then
          [fmt1 ((high_dollar_claims : ℚ) / (total_claims : ℚ) * 100)
            ++ "% high-dollar claims"]
        else []
      let transaction_insights := cashPart ++ dollarPart
      if transaction_insights ≠ [] then
        ["📊 Transaction Analysis: "
          ++ String.intercalate ", " transaction_insights]
      else []
    else []
  let explanation_parts := highPart ++ mediumPart ++ transactionPart
  let withDefault :=
    if explanation_parts = [] then
      ["Multiple agent analysis completed - no significant fraud indicators detected"]
    else explanation_parts
  String.intercalate " | " withDefault

/-- The dict returned by `_calculate_single_pharmacy_score`, with its
keys as record fields in source order. -/
structure PharmacyScoreRecord where
  pharmacy_number : String
  pharmacy_name : String
  pharmacy_city : String
  pharmacy_state : String
  weighted_score : ℚ
  contributing_agents : List String
  agent_scores : List (String × ℚ)
  agent_reasons : List (String × String)
  consistency_score : ℚ
  outlier_score : ℚ
  fraud_explanation : String
  transaction_count : ℕ
  risk_level : String
deriving Repr, DecidableEq

/-- Looks a detail column up in the coverage agent finding for this
pharmacy, with default Unknown, as the source does through the
pharmacy_details dict for the coverage_agent key. -/
def detailField (p : String) (agent_results : AgentResults) (key : String) :
    String :=
  match (agent_results.lookup "coverage_agent").bind (findingFor p) with
  | some f => (f.detail.lookup key).getD "Unknown"
  | none => "Unknown"

/-- Embeds `_get_pharmacy_transactions`. -/
def get_pharmacy_transactions (p : String) (df : Dataset) : List RawRecord :=
  df.filter (fun r => r.pharmacy_number == p)

/-- Embeds `WeightedScoringSystem._calculate_single_pharmacy_score`: the
aggregated record for one pharmacy.  Note that the exported
`weighted_score` key holds the rounded blended final score, and
`risk_level` is computed from the unrounded final score. -/
noncomputable def calculate_single_pharmacy_score
    (weights : List (String × ℚ)) (p : String)
    (agent_results : AgentResults) (df : Dataset) : PharmacyScoreRecord :=
  let scores := pharmacyScores p agent_results
  let reasons := pharmacyReasons p agent_results
  let final := final_score_val weights p agent_results
  let transactions := get_pharmacy_transactions p df
  { pharmacy_number := p
    pharmacy_name := detailField p agent_results "pharmacy_name"
    pharmacy_city := detailField p agent_results "pharmacy_city"
    pharmacy_state := detailField p agent_results "pharmacy_state"
    weighted_score := round3 final
    contributing_agents := scores.map Prod.fst
    agent_scores := scores
    agent_reasons := reasons
    consistency_score := roundQ3 (calculate_consistency_score (scores.map Prod.snd))
    outlier_score := round3 (calculate_outlier_score p agent_results)
    fraud_explanation := generate_fraud_explanation scores reasons transactions
    transaction_count := transactions.length
    risk_level := determine_risk_level final }

/-- A serialized export value (string, number, list or map), for
field-for-field serialization of a record. -/
inductive ExportValue where
  | str (s : String)
  | rat (q : ℚ)
  | nat (n : ℕ)
  | strList (l : List String)
  | ratMap (m : List (String × ℚ))
  | strMap (m : List (String × String))
deriving Repr, DecidableEq

/-- Field-for-field serialization of a pharmacy record, with the keys
exactly as in the dict literal at lines 167-181 of the source. -/
def serializeRecord (r : PharmacyScoreRecord) : List (String × ExportValue) :=
  [("pharmacy_number", .str r.pharmacy_number),
   ("pharmacy_name", .str r.pharmacy_name),
   ("pharmacy_city", .str r.pharmacy_city),
   ("pharmacy_state", .str r.pharmacy_state),
   ("weighted_score", .rat r.weighted_score),
   ("contributing_agents", .strList r.contributing_agents),
   ("agent_scores", .ratMap r.agent_scores),
   ("agent_reasons", .strMap r.agent_reasons),
   ("consistency_score", .rat r.consistency_score),
   ("outlier_score", .rat r.outlier_score),
   ("fraud_explanation", .str r.fraud_explanation),
   ("transaction_count", .nat r.transaction_count),
   ("risk_level", .str r.risk_level)]

/-- The keys of the serialized record, in order. -/
def pharmacyRecordKeys : List String :=
  ["pharmacy_number", "pharmacy_name", "pharmacy_city", "pharmacy_state",
   "weighted_score", "contributing_agents", "agent_scores", "agent_reasons",
   "consistency_score", "outlier_score", "fraud_explanation",
   "transaction_count", "risk_level"]

/-- The aggregation domain (`all_pharmacies` in
`calculate_weighted_scores`): every pharmacy number appearing in any
agent result set.  The Python set is modelled as the deduplicated list
of first occurrences. -/
def all_pharmacies (agent_results : AgentResults) : List String :=
  (agent_results.flatMap (fun r => r.2.map (fun f => f.pharmacy_number))).dedup

/-- Embeds `WeightedScoringSystem.calculate_weighted_scores`: one aggregated
record per pharmacy in the aggregation domain. -/
noncomputable def calculate_weighted_scores (weights : List (String × ℚ))
    (agent_results : AgentResults) (df : Dataset) :
    List PharmacyScoreRecord :=
  (all_pharmacies agent_results).map
    (fun p => calculate_single_pharmacy_score weights p agent_results df)

/-- A scoring agent, as the execution pool sees it: a function from the
dataset to findings or an error. -/
abbrev AgentFn := Dataset → Except String (List Finding)

/-- Embeds `WeightedScoringSystem.run_agents_parallel` together with
`_run_single_agent`: every agent runs on the same dataset; an agent that
raises is recorded as an empty result set and the run continues. -/
def run_agents_parallel (agents : List (String × AgentFn)) (df : Dataset) :
    AgentResults :=
  agents.map (fun a =>
    (a.1, match a.2 df with
      | .ok fs => fs
      | .error _ => []))

/-- One entry of `insights["agent_performance"]` in
`SupervisorAgent._generate_supervisor_insights`. -/
structure AgentPerformance where
  avg_score : ℚ
  high_risk_findings : ℕ
  total_findings : ℕ
deriving Repr, DecidableEq

/-- The `agent_performance` insight map: one entry per agent whose
result set is nonempty (agents with an empty result set are skipped). -/
def agent_performance (agent_results : AgentResults) :
    List (String × AgentPerformance) :=
  (agent_results.filter (fun r => !r.2.isEmpty)).map (fun r =>
    (r.1,
      { avg_score := roundQ3 (mean (r.2.map (fun f => f.fraud_score)))
        high_risk_findings :=
          (r.2.filter (fun f => 8/10 ≤ f.fraud_score)).length
        total_findings := r.2.length }))

/-- A row of the final results: an aggregated record plus its assigned
rank column. -/
structure RankedRecord where
  record : PharmacyScoreRecord
  rank : ℕ
deriving Repr, DecidableEq

/-- Descending order on the exported score column
(`sort_values("weighted_score", ascending=False)`). -/
abbrev scoreGE (a b : RankedRecord) : Prop :=
  b.record.weighted_score ≤ a.record.weighted_score

instance : DecidableRel scoreGE := fun a b =>
  inferInstanceAs (Decidable (b.record.weighted_score ≤ a.record.weighted_score))

instance : IsTotal RankedRecord scoreGE :=
  ⟨fun a b => le_total b.record.weighted_score a.record.weighted_score⟩

instance : IsTrans RankedRecord scoreGE := ⟨fun _ _ _ h1 h2 => le_trans h2 h1⟩

/-- Embeds the rank column assignment
`final_results["rank"] = range(1, len(final_results) + 1)`. -/
def assignRanks (rs : List RankedRecord) : List RankedRecord :=
  List.zipWith (fun r i => ⟨r.record, i⟩) rs (List.range' 1 rs.length)

/-- The core of `final_results_node`: sort descending by the exported
score column (modelled as a stable sort) and assign ranks 1..n. -/
def rank_and_sort (rs : List RankedRecord) : List RankedRecord :=
  assignRanks (List.insertionSort scoreGE rs)

/-- Embeds `final_results_node` from `langgraph/parallel_fraud_graph.py`,
applied to the aggregated records (the rank column does not exist yet;
it is materialized with a placeholder 0 before sorting). -/
def final_results_node (ws : List PharmacyScoreRecord) : List RankedRecord :=
  rank_and_sort (ws.map (fun r => ⟨r, 0⟩))

/-! Concrete scenarios used as counterexamples and witnesses. -/

/-- A run in which only the coverage agent reports: one finding, score
1.0, for pharmacy PH001.  The normalized weight of the coverage agent in
`default_weights` is 0.25. -/
def soloAgentResults : AgentResults :=
  [("coverage_agent", [⟨"PH001", 1, "All cash claims", []⟩]),
   ("patient_flip_agent", []), ("high_dollar_agent", []),
   ("rejection_agent", []), ("network_agent", [])]

/-- Overrides that set every agent weight to zero. -/
def zeroOverrides : List (String × ℚ) :=
  [("coverage_agent", 0), ("patient_flip_agent", 0),
   ("high_dollar_agent", 0), ("rejection_agent", 0), ("network_agent", 0)]

/-- A weight vector concentrating all weight on the coverage agent. -/
def c10Weights : List (String × ℚ) := [("coverage_agent", 1)]

/-- A run whose single finding has score 0.928, chosen so that the
final score is 0.928 x 0.7 + 0.5 x 0.2 + 0.5 x 0.1 = 0.7996. -/
def c10AgentResults : AgentResults :=
  [("coverage_agent", [⟨"PH001", 116/125, "cash heavy", []⟩])]

/-- An agent that succeeds on every dataset with one finding. -/
def goodAgentFn : AgentFn :=
  fun _ => Except.ok [⟨"PH001", 9/10, "high risk", []⟩]

/-- An agent that raises on every dataset. -/
def badAgentFn : AgentFn := fun _ => Except.error "boom"

/-- A pool with one healthy agent and one always-failing agent. -/
def c7Agents : List (String × AgentFn) :=
  [("coverage_agent", goodAgentFn), ("network_agent", badAgentFn)]

end WeightedScoring

namespace WeightedScoring

/-! Helper lemmas and claim theorems. -/

theorem filter_ne_nil_iff (scores : List ℚ) (p : ℚ → Prop) [DecidablePred p] :
    (scores.filter (fun s => p s) ≠ []) ↔ ∃ s ∈ scores, p s := by
  simp [List.filter_eq_nil_iff]

theorem sumValues_map_div (l : List (String × ℚ)) (t : ℚ) :
    sumValues (l.map (fun p => (p.1, p.2 / t))) = sumValues l / t := by
  induction l with
  | nil => simp [sumValues]
  | cons a l ih =>
    simp only [List.map_cons, sumValues, List.sum_cons] at ih ⊢
    rw [add_div, ih]

theorem serializeRecord_keys (r : PharmacyScoreRecord) :
    (serializeRecord r).map Prod.fst = pharmacyRecordKeys := rfl

/-- C3: the claim fails on the code.  When the merged weights sum to 0,
the update operation does not leave the vector unchanged: the overrides
were already merged in before the zero-sum guard, so updating the
default vector with all-zero overrides replaces every weight by 0. -/
theorem dictUpdate_zeroOverrides_eval :
    dictUpdate default_weights zeroOverrides =
      [("coverage_agent", 0), ("patient_flip_agent", 0),
       ("high_dollar_agent", 0), ("rejection_agent", 0),
       ("network_agent", 0)] := by
  simp +decide [dictUpdate, dictInsert, default_weights, zeroOverrides]

theorem C3_counterexample :
    sumValues (dictUpdate default_weights zeroOverrides) = 0 ∧
    update_weights default_weights zeroOverrides ≠ default_weights := by
  rw [update_weights, dictUpdate_zeroOverrides_eval]
  refine ⟨by norm_num [sumValues], ?_⟩
  norm_num [sumValues, default_weights]

/-- C3 (amended): after an update whose merged weights have positive
sum, the weights sum to exactly 1; when the merged weights sum to 0, the
post-update vector equals the merged map (overrides applied but not
normalized), which need not equal the pre-update vector. -/
theorem C3_update_weights_normalizes (cur new : List (String × ℚ)) :
    (0 < sumValues (dictUpdate cur new) →
      sumValues (update_weights cur new) = 1) ∧
    (sumValues (dictUpdate cur new) = 0 →
      update_weights cur new = dictUpdate cur new) := by
  constructor
  · intro h
    unfold update_weights
    simp only [if_pos h]
    rw [sumValues_map_div, div_self (ne_of_gt h)]
  · intro h
    unfold update_weights
    simp [h]

/-- C3 witness: a concrete positive-sum update whose result sums to 1. -/
theorem C3_update_weights_normalizes_witness :
    0 < sumValues (dictUpdate default_weights [("coverage_agent", 1/2)]) ∧
    sumValues (update_weights default_weights [("coverage_agent", 1/2)]) = 1 :=
  ⟨by norm_num +decide [dictUpdate, dictInsert, default_weights, sumValues],
   (C3_update_weights_normalizes default_weights [("coverage_agent", 1/2)]).1
     (by norm_num +decide [dictUpdate, dictInsert, default_weights, sumValues])⟩

/-- C4: the consistency score implements exactly the claimed case
analysis, and its value is always one of 0.1, 0.3, 0.5, 0.9. -/
theorem C4_consistency_score_classification (scores : List ℚ) :
    (scores.length < 2 → calculate_consistency_score scores = 1/2) ∧
    (2 ≤ scores.length →
      (((∃ s ∈ scores, 8/10 ≤ s) ∧ (∃ s ∈ scores, s < 4/10)) →
        calculate_consistency_score scores = 3/10) ∧
      (((∃ s ∈ scores, 8/10 ≤ s) ∧ ¬ (∃ s ∈ scores, s < 4/10)) →
        calculate_consistency_score scores = 9/10) ∧
      ((¬ (∃ s ∈ scores, 8/10 ≤ s) ∧ (∃ s ∈ scores, s < 4/10)) →
        calculate_consistency_score scores = 1/10) ∧
      ((¬ (∃ s ∈ scores, 8/10 ≤ s) ∧ ¬ (∃ s ∈ scores, s < 4/10)) →
        calculate_consistency_score scores = 1/2)) ∧
    (calculate_consistency_score scores = 1/10 ∨
      calculate_consistency_score scores = 3/10 ∨
      calculate_consistency_score scores = 1/2 ∨
      calculate_consistency_score scores = 9/10) := by
  have hhi := filter_ne_nil_iff scores (fun s => 8/10 ≤ s)
  have hlo := filter_ne_nil_iff scores (fun s => s < 4/10)
  by_cases hlen : scores.length < 2
  · have hval : calculate_consistency_score scores = 1/2 := by
      simp only [calculate_consistency_score, if_pos hlen]
    exact ⟨fun _ => hval, fun h => (by omega : False).elim,
      Or.inr (Or.inr (Or.inl hval))⟩
  · by_cases h1 : ∃ s ∈ scores, (8:ℚ)/10 ≤ s <;>
      by_cases h2 : ∃ s ∈ scores, s < (4:ℚ)/10
    · have hval : calculate_consistency_score scores = 3/10 := by
        simp only [calculate_consistency_score, if_neg hlen]
        rw [if_pos ⟨hhi.mpr h1, hlo.mpr h2⟩]
      refine ⟨fun h => absurd h hlen, fun _ => ?_, Or.inr (Or.inl hval)⟩
      exact ⟨fun _ => hval, fun h => absurd h2 h.2, fun h => absurd h1 h.1,
        fun h => absurd h1 h.1⟩
    · have hval : calculate_consistency_score scores = 9/10 := by
        simp only [calculate_consistency_score, if_neg hlen]
        rw [if_neg (fun hab => h2 (hlo.mp hab.2))]
        rw [if_pos (hhi.mpr h1)]
      refine ⟨fun h => absurd h hlen, fun _ => ?_,
        Or.inr (Or.inr (Or.inr hval))⟩
      exact ⟨fun h => absurd h.2 h2, fun _ => hval, fun h => absurd h1 h.1,
        fun h => absurd h1 h.1⟩
    · have hval : calculate_consistency_score scores = 1/10 := by
        simp only [calculate_consistency_score, if_neg hlen]
        rw [if_neg (fun hab => h1 (hhi.mp hab.1))]
        rw [if_neg (fun ha => h1 (hhi.mp ha))]
        rw [if_pos (hlo.mpr h2)]
      refine ⟨fun h => absurd h hlen, fun _ => ?_, Or.inl hval⟩
      exact ⟨fun h => absurd h.1 h1, fun h => absurd h.1 h1, fun _ => hval,
        fun h => absurd h2 h.2⟩
    · have hval : calculate_consistency_score scores = 1/2 := by
        simp only [calculate_consistency_score, if_neg hlen]
        rw [if_neg (fun hab => h1 (hhi.mp hab.1))]
        rw [if_neg (fun ha => h1 (hhi.mp ha))]
        rw [if_neg (fun hb => h2 (hlo.mp hb))]
      refine ⟨fun h => absurd h hlen, fun _ => ?_,
        Or.inr (Or.inr (Or.inl hval))⟩
      exact ⟨fun h => absurd h.1 h1, fun h => absurd h.1 h1,
        fun h => absurd h.2 h2, fun _ => hval⟩

/-- C4 witness: two conflicting scores yield consistency 0.3. -/
theorem C4_consistency_score_classification_witness :
    2 ≤ ([9/10, 1/10] : List ℚ).length ∧
    calculate_consistency_score [9/10, 1/10] = 3/10 :=
  ⟨by norm_num,
   ((C4_consistency_score_classification [9/10, 1/10]).2.1 (by norm_num)).1
     ⟨⟨9/10, by norm_num⟩, ⟨1/10, by norm_num⟩⟩⟩

/-- C6: risk level is a pure step function of the final score with
lower-bound-inclusive bands at 0.8, 0.6 and 0.4. -/
theorem C6_risk_level_bands (s : ℝ) :
    (8/10 ≤ s → determine_risk_level s = "HIGH RISK") ∧
    (6/10 ≤ s ∧ s < 8/10 → determine_risk_level s = "MEDIUM RISK") ∧
    (4/10 ≤ s ∧ s < 6/10 → determine_risk_level s = "LOW RISK") ∧
    (s < 4/10 → determine_risk_level s = "VERY LOW RISK") := by
  refine ⟨fun h => ?_, fun h => ?_, fun h => ?_, fun h => ?_⟩
  · rw [determine_risk_level, if_pos h]
  · rw [determine_risk_level, if_neg (not_le.mpr h.2), if_pos h.1]
  · rw [determine_risk_level,
      if_neg (not_le.mpr (lt_of_lt_of_le h.2 (by norm_num))),
      if_neg (not_le.mpr h.2), if_pos h.1]
  · rw [determine_risk_level,
      if_neg (not_le.mpr (lt_of_lt_of_le h (by norm_num))),
      if_neg (not_le.mpr (lt_of_lt_of_le h (by norm_num))),
      if_neg (not_le.mpr h)]

/-- C6 witness: a final score of 0.7 is MEDIUM RISK. -/
theorem C6_risk_level_bands_witness :
    (6/10 ≤ (7/10 : ℝ) ∧ (7/10 : ℝ) < 8/10) ∧
    determine_risk_level (7/10 : ℝ) = "MEDIUM RISK" :=
  ⟨by norm_num, (C6_risk_level_bands (7/10 : ℝ)).2.1 (by norm_num)⟩

/-- C2: the claim fails on the code.  The record produced for an entity
has no key named final_score, entity_id, contributing_units or
explanation: the blended final score is exported under the key
weighted_score, and the spec-level names entity_id, contributing_units
and explanation appear as pharmacy_number, contributing_agents and
fraud_explanation. -/
theorem C2_counterexample :
    "final_score" ∉ (serializeRecord (calculate_single_pharmacy_score
      default_weights "PH001" soloAgentResults [])).map Prod.fst ∧
    "entity_id" ∉ (serializeRecord (calculate_single_pharmacy_score
      default_weights "PH001" soloAgentResults [])).map Prod.fst ∧
    "contributing_units" ∉ (serializeRecord (calculate_single_pharmacy_score
      default_weights "PH001" soloAgentResults [])).map Prod.fst ∧
    "explanation" ∉ (serializeRecord (calculate_single_pharmacy_score
      default_weights "PH001" soloAgentResults [])).map Prod.fst := by
  simp only [serializeRecord_keys]
  decide

/-- C2 (amended): every record serializes field-for-field with exactly
the thirteen keys of the source dict, none renamed and none dropped
relative to the source; the spec keys entity_id, final_score,
contributing_units and explanation do not occur among them. -/
theorem C2_record_serialization (r : PharmacyScoreRecord) :
    (serializeRecord r).map Prod.fst = pharmacyRecordKeys ∧
    pharmacyRecordKeys.Nodup ∧
    "pharmacy_number" ∈ pharmacyRecordKeys ∧
    "weighted_score" ∈ pharmacyRecordKeys ∧
    "consistency_score" ∈ pharmacyRecordKeys ∧
    "outlier_score" ∈ pharmacyRecordKeys ∧
    "risk_level" ∈ pharmacyRecordKeys ∧
    "contributing_agents" ∈ pharmacyRecordKeys ∧
    "fraud_explanation" ∈ pharmacyRecordKeys ∧
    "entity_id" ∉ pharmacyRecordKeys ∧
    "final_score" ∉ pharmacyRecordKeys ∧
    "contributing_units" ∉ pharmacyRecordKeys ∧
    "explanation" ∉ pharmacyRecordKeys :=
  ⟨serializeRecord_keys r, by decide, by decide, by decide, by decide,
   by decide, by decide, by decide, by decide, by decide, by decide,
   by decide, by decide⟩

theorem variance_nonneg (l : List ℚ) : 0 ≤ variance l := by
  unfold variance
  apply div_nonneg
  · apply List.sum_nonneg
    intro x hx
    simp only [List.mem_map] at hx
    obtain ⟨y, _, rfl⟩ := hx
    positivity
  · positivity

theorem std_eq_zero_iff (l : List ℚ) : std l = 0 ↔ variance l = 0 := by
  unfold std
  rw [Real.sqrt_eq_zero (by exact_mod_cast variance_nonneg l)]
  constructor <;> intro h <;> exact_mod_cast h

theorem sigmoid_pos (z : ℝ) : 0 < sigmoid z := by
  unfold sigmoid
  positivity

theorem sigmoid_lt_one (z : ℝ) : sigmoid z < 1 := by
  unfold sigmoid
  rw [div_lt_one (by positivity)]
  linarith [Real.exp_pos (-z)]

/-- C5: for an entity with at least one reported score, the outlier
score is exactly 0.5 when the pooled standard deviation is 0, and
otherwise equals the sigmoid of the z-score, which lies strictly
between 0 and 1. -/
theorem C5_outlier_score (p : String) (ar : AgentResults)
    (hall : allScores ar ≠ [])
    (hph : (pharmacyScores p ar).map Prod.snd ≠ []) :
    (std (allScores ar) = 0 → calculate_outlier_score p ar = 1/2) ∧
    (std (allScores ar) ≠ 0 →
      calculate_outlier_score p ar =
        sigmoid (((mean ((pharmacyScores p ar).map Prod.snd) -
          mean (allScores ar) : ℚ) : ℝ) / std (allScores ar)) ∧
      0 < calculate_outlier_score p ar ∧
      calculate_outlier_score p ar < 1) := by
  by_cases hv : variance (allScores ar) = 0
  · have hstd : std (allScores ar) = 0 := (std_eq_zero_iff _).mpr hv
    refine ⟨fun _ => ?_, fun h => absurd hstd h⟩
    unfold calculate_outlier_score
    simp only [if_neg hall, if_pos hv]
  · have hstd : std (allScores ar) ≠ 0 :=
      fun h => hv ((std_eq_zero_iff _).mp h)
    refine ⟨fun h => absurd h hstd, fun _ => ?_⟩
    have heq : calculate_outlier_score p ar =
        sigmoid (((mean ((pharmacyScores p ar).map Prod.snd) -
          mean (allScores ar) : ℚ) : ℝ) / std (allScores ar)) := by
      unfold calculate_outlier_score
      simp only [if_neg hall, if_neg hv, if_neg hph]
    exact ⟨heq, heq ▸ sigmoid_pos _, heq ▸ sigmoid_lt_one _⟩

/-- C5 witness: a population with a single score has standard deviation
0, and the outlier score evaluates to exactly 0.5. -/
theorem C5_outlier_score_witness :
    std (allScores soloAgentResults) = 0 ∧
    calculate_outlier_score "PH001" soloAgentResults = 1/2 := by
  have hall : allScores soloAgentResults ≠ [] := by decide
  have hph : (pharmacyScores "PH001" soloAgentResults).map Prod.snd ≠ [] := by
    decide
  have hone : allScores soloAgentResults = [1] := rfl
  have hv : variance (allScores soloAgentResults) = 0 := by
    rw [hone]
    norm_num [variance, mean]
  have hstd : std (allScores soloAgentResults) = 0 :=
    (std_eq_zero_iff _).mpr hv
  exact ⟨hstd, (C5_outlier_score "PH001" soloAgentResults hall hph).1 hstd⟩

theorem round3_ratCast (q : ℚ) : round3 (q : ℝ) = roundQ3 q := by
  unfold round3 roundQ3
  have h : ((q : ℝ) * 1000) = ((q * 1000 : ℚ) : ℝ) := by push_cast; ring
  rw [h, Rat.round_cast]

theorem solo_variance_zero : variance (allScores soloAgentResults) = 0 := by
  have hone : allScores soloAgentResults = [1] := rfl
  rw [hone]
  norm_num [variance, mean]

theorem solo_outlier_eval :
    calculate_outlier_score "PH001" soloAgentResults = 1/2 := by
  unfold calculate_outlier_score
  rw [if_neg (by decide : ¬ allScores soloAgentResults = []),
    if_pos solo_variance_zero]

theorem solo_final_eval :
    final_score_val default_weights "PH001" soloAgentResults =
      ((13/40 : ℚ) : ℝ) := by
  unfold final_score_val
  rw [solo_outlier_eval]
  have hps : pharmacyScores "PH001" soloAgentResults =
      [("coverage_agent", 1)] := rfl
  rw [hps]
  have hwc : weightedComponent default_weights [("coverage_agent", 1)] = 1/4 := by
    norm_num +decide [weightedComponent, default_weights]
  have hcs : calculate_consistency_score
      (([("coverage_agent", (1:ℚ))]).map Prod.snd) = 1/2 := by
    norm_num [calculate_consistency_score]
  rw [hwc, hcs]
  push_cast
  norm_num

/-- C1: the claim fails on the code.  With the default normalized
weights, when only the coverage agent (normalized weight 0.25) reports a
score of 1.0 for pharmacy PH001, the exported weighted_score is not
0.25: the key weighted_score carries the rounded blended final score
0.7 x 0.25 + 0.2 x 0.5 + 0.1 x 0.5 = 0.325. -/
theorem C1_counterexample :
    sumValues default_weights = 1 ∧
    (default_weights.lookup "coverage_agent").getD 0 = 1/4 ∧
    pharmacyScores "PH001" soloAgentResults = [("coverage_agent", 1)] ∧
    (calculate_single_pharmacy_score default_weights "PH001"
      soloAgentResults []).weighted_score = 13/40 ∧
    (calculate_single_pharmacy_score default_weights "PH001"
      soloAgentResults []).weighted_score ≠ 1/4 := by
  refine ⟨by norm_num [sumValues, default_weights], rfl, rfl, ?_, ?_⟩
  · have h : (calculate_single_pharmacy_score default_weights "PH001"
        soloAgentResults []).weighted_score =
        round3 (final_score_val default_weights "PH001" soloAgentResults) := rfl
    rw [h, solo_final_eval, round3_ratCast, roundQ3]
    rw [show ((13:ℚ)/40 * 1000) = ((325 : ℤ) : ℚ) by norm_num, round_intCast]
    norm_num
  · have h : (calculate_single_pharmacy_score default_weights "PH001"
        soloAgentResults []).weighted_score =
        round3 (final_score_val default_weights "PH001" soloAgentResults) := rfl
    rw [h, solo_final_eval, round3_ratCast, roundQ3]
    rw [show ((13:ℚ)/40 * 1000) = ((325 : ℤ) : ℚ) by norm_num, round_intCast]
    norm_num

/-- C1 (amended): the internal weighted-sum component is the sum, over
exactly the agents that reported for the entity, of score times weight
(non-reporting agents contribute 0, with no renormalization); when a
single agent reports score s it equals s times that agent weight, 0.25
in the example scenario.  The field exported under the name
weighted_score, however, holds the rounded blended final score. -/
theorem C1_weighted_component (weights : List (String × ℚ)) (p : String)
    (ar : AgentResults) (df : Dataset) :
    weightedComponent weights (pharmacyScores p ar) =
      (ar.map (fun r =>
        match findingFor p r.2 with
        | some f => f.fraud_score * ((weights.lookup r.1).getD 0)
        | none => 0)).sum ∧
    (∀ u s, pharmacyScores p ar = [(u, s)] →
      weightedComponent weights (pharmacyScores p ar) =
        s * ((weights.lookup u).getD 0)) ∧
    (calculate_single_pharmacy_score weights p ar df).weighted_score =
      round3 (final_score_val weights p ar) := by
  refine ⟨?_, ?_, rfl⟩
  · induction ar with
    | nil => rfl
    | cons a l ih =>
      simp only [pharmacyScores, List.filterMap_cons, List.map_cons,
        List.sum_cons] at ih ⊢
      cases h : findingFor p a.2 with
      | none => simpa using ih
      | some f =>
        simp only [Option.map_some', weightedComponent, List.map_cons,
          List.sum_cons] at ih ⊢
        rw [ih]
  · intro u s h
    rw [h]
    simp [weightedComponent]

/-- C1 witness: in the solo scenario the component is score times the
coverage agent weight. -/
theorem C1_weighted_component_witness :
    pharmacyScores "PH001" soloAgentResults = [("coverage_agent", 1)] ∧
    weightedComponent default_weights (pharmacyScores "PH001" soloAgentResults) =
      1 * ((default_weights.lookup "coverage_agent").getD 0) :=
  ⟨rfl, (C1_weighted_component default_weights "PH001" soloAgentResults []).2.1
    "coverage_agent" 1 rfl⟩

theorem c10_variance_zero : variance (allScores c10AgentResults) = 0 := by
  have hone : allScores c10AgentResults = [116/125] := rfl
  rw [hone]
  norm_num [variance, mean]

theorem c10_outlier_eval :
    calculate_outlier_score "PH001" c10AgentResults = 1/2 := by
  unfold calculate_outlier_score
  rw [if_neg (by decide : ¬ allScores c10AgentResults = []),
    if_pos c10_variance_zero]

theorem c10_final_eval :
    final_score_val c10Weights "PH001" c10AgentResults =
      ((1999/2500 : ℚ) : ℝ) := by
  unfold final_score_val
  rw [c10_outlier_eval]
  have hps : pharmacyScores "PH001" c10AgentResults =
      [("coverage_agent", 116/125)] := rfl
  rw [hps]
  have hwc : weightedComponent c10Weights [("coverage_agent", 116/125)] =
      116/125 := by
    norm_num +decide [weightedComponent, c10Weights]
  have hcs : calculate_consistency_score
      (([("coverage_agent", (116/125 : ℚ))]).map Prod.snd) = 1/2 := by
    norm_num [calculate_consistency_score]
  rw [hwc, hcs]
  push_cast
  norm_num

/-- C10: the risk level is computed from the unrounded final score while
the exported score fields are rounded to three decimals; in the
concrete scenario the unrounded final score is 0.7996, so the exported
weighted_score is the boundary value 0.8 while risk_level is MEDIUM
RISK, the band below HIGH RISK. -/
theorem C10_rounding_vs_risk_level :
    (∀ (weights : List (String × ℚ)) (p : String) (ar : AgentResults)
        (df : Dataset),
      (calculate_single_pharmacy_score weights p ar df).risk_level =
        determine_risk_level (final_score_val weights p ar) ∧
      (calculate_single_pharmacy_score weights p ar df).weighted_score =
        round3 (final_score_val weights p ar) ∧
      (calculate_single_pharmacy_score weights p ar df).consistency_score =
        roundQ3 (calculate_consistency_score
          ((pharmacyScores p ar).map Prod.snd)) ∧
      (calculate_single_pharmacy_score weights p ar df).outlier_score =
        round3 (calculate_outlier_score p ar)) ∧
    final_score_val c10Weights "PH001" c10AgentResults =
      ((1999/2500 : ℚ) : ℝ) ∧
    (calculate_single_pharmacy_score c10Weights "PH001" c10AgentResults
      []).weighted_score = 8/10 ∧
    determine_risk_level ((1999/2500 : ℚ) : ℝ) = "MEDIUM RISK" ∧
    (calculate_single_pharmacy_score c10Weights "PH001" c10AgentResults
      []).risk_level = "MEDIUM RISK" := by
  have hrisk : determine_risk_level ((1999/2500 : ℚ) : ℝ) = "MEDIUM RISK" := by
    rw [determine_risk_level,
      if_neg (by push_cast; norm_num : ¬ (8/10 : ℝ) ≤ ((1999/2500 : ℚ) : ℝ)),
      if_pos (by push_cast; norm_num : (6/10 : ℝ) ≤ ((1999/2500 : ℚ) : ℝ))]
  refine ⟨fun weights p ar df => ⟨rfl, rfl, rfl, rfl⟩, c10_final_eval, ?_,
    hrisk, ?_⟩
  · have h : (calculate_single_pharmacy_score c10Weights "PH001"
        c10AgentResults []).weighted_score =
        round3 (final_score_val c10Weights "PH001" c10AgentResults) := rfl
    rw [h, c10_final_eval, round3_ratCast, roundQ3, round_eq]
    rw [show ((1999:ℚ)/2500 * 1000 + 1/2) = (8001/10 : ℚ) by norm_num]
    rw [show ⌊(8001/10 : ℚ)⌋ = 800 by
      rw [Int.floor_eq_iff]
      norm_num]
    norm_num
  · have h : (calculate_single_pharmacy_score c10Weights "PH001"
        c10AgentResults []).risk_level =
        determine_risk_level (final_score_val c10Weights "PH001"
          c10AgentResults) := rfl
    rw [h, c10_final_eval, hrisk]

/-- C8: aggregation is a pure function of the finding map, the dataset
and the weight vector: equal inputs produce identical record lists. -/
theorem C8_aggregation_deterministic (w1 w2 : List (String × ℚ))
    (ar1 ar2 : AgentResults) (df1 df2 : Dataset)
    (hw : w1 = w2) (har : ar1 = ar2) (hdf : df1 = df2) :
    calculate_weighted_scores w1 ar1 df1 =
      calculate_weighted_scores w2 ar2 df2 := by
  rw [hw, har, hdf]

/-- C8 witness: two runs of aggregation on the solo scenario agree. -/
theorem C8_aggregation_deterministic_witness :
    calculate_weighted_scores default_weights soloAgentResults [] =
      calculate_weighted_scores default_weights soloAgentResults [] :=
  C8_aggregation_deterministic default_weights default_weights
    soloAgentResults soloAgentResults [] [] rfl rfl rfl

theorem zipWith_mk_map_rank :
    ∀ (l : List RankedRecord) (idx : List ℕ), idx.length = l.length →
      (List.zipWith (fun r i => RankedRecord.mk r.record i) l idx).map
        (fun r => r.rank) = idx := by
  intro l
  induction l with
  | nil =>
    intro idx h
    rw [List.length_nil] at h
    rw [List.eq_nil_of_length_eq_zero h]
    rfl
  | cons a t ih =>
    intro idx h
    cases idx with
    | nil => simp at h
    | cons i is =>
      simp only [List.zipWith, List.map_cons, List.cons.injEq]
      exact ⟨trivial, ih is (by simpa using h)⟩

theorem mem_zipWith_mk :
    ∀ (l : List RankedRecord) (idx : List ℕ) (b : RankedRecord),
      b ∈ List.zipWith (fun r i => RankedRecord.mk r.record i) l idx →
      ∃ a ∈ l, b.record = a.record := by
  intro l
  induction l with
  | nil =>
    intro idx b h
    simp at h
  | cons a t ih =>
    intro idx b h
    cases idx with
    | nil => simp at h
    | cons i is =>
      simp only [List.zipWith, List.mem_cons] at h
      rcases h with h | h
      · exact ⟨a, List.mem_cons_self a t, by rw [h]⟩
      · obtain ⟨x, hx, hb⟩ := ih is b h
        exact ⟨x, List.mem_cons_of_mem a hx, hb⟩

theorem pairwise_zipWith_mk :
    ∀ (l : List RankedRecord) (idx : List ℕ), l.Pairwise scoreGE →
      (List.zipWith (fun r i => RankedRecord.mk r.record i) l
        idx).Pairwise scoreGE := by
  intro l
  induction l with
  | nil =>
    intro idx _
    simp
  | cons a t ih =>
    intro idx h
    cases idx with
    | nil => simp
    | cons i is =>
      rw [List.pairwise_cons] at h
      simp only [List.zipWith]
      rw [List.pairwise_cons]
      refine ⟨fun b hb => ?_, ih is h.2⟩
      obtain ⟨x, hx, hbx⟩ := mem_zipWith_mk t is b hb
      have hax := h.1 x hx
      show b.record.weighted_score ≤ a.record.weighted_score
      rw [hbx]
      exact hax

theorem zipWith_mk_idem :
    ∀ (l : List RankedRecord) (idx : List ℕ),
      List.zipWith (fun r i => RankedRecord.mk r.record i)
        (List.zipWith (fun r i => RankedRecord.mk r.record i) l idx) idx =
      List.zipWith (fun r i => RankedRecord.mk r.record i) l idx := by
  intro l
  induction l with
  | nil =>
    intro idx
    rfl
  | cons a t ih =>
    intro idx
    cases idx with
    | nil => rfl
    | cons i is =>
      simp only [List.zipWith, List.cons.injEq]
      exact ⟨trivial, ih is⟩

theorem assignRanks_length (l : List RankedRecord) :
    (assignRanks l).length = l.length := by
  simp [assignRanks, List.length_zipWith, List.length_range']

theorem assignRanks_pairwise (l : List RankedRecord)
    (h : l.Pairwise scoreGE) : (assignRanks l).Pairwise scoreGE :=
  pairwise_zipWith_mk l _ h

theorem assignRanks_idem (l : List RankedRecord) :
    assignRanks (assignRanks l) = assignRanks l := by
  have hlen : (assignRanks l).length = l.length := assignRanks_length l
  unfold assignRanks
  rw [show (List.zipWith (fun r i => RankedRecord.mk r.record i) l
    (List.range' 1 l.length)).length = l.length from hlen]
  exact zipWith_mk_idem l _

theorem rank_and_sort_pairwise (rs : List RankedRecord) :
    (rank_and_sort rs).Pairwise scoreGE :=
  assignRanks_pairwise _ (List.sorted_insertionSort scoreGE rs)

theorem rank_and_sort_ranks (rs : List RankedRecord) :
    (rank_and_sort rs).map (fun r => r.rank) =
      List.range' 1 rs.length := by
  unfold rank_and_sort assignRanks
  rw [zipWith_mk_map_rank _ _ (by simp [List.length_range',
    List.length_insertionSort]), List.length_insertionSort]

theorem rank_and_sort_idem (rs : List RankedRecord) :
    rank_and_sort (rank_and_sort rs) = rank_and_sort rs := by
  have hsorted : (rank_and_sort rs).Pairwise scoreGE :=
    rank_and_sort_pairwise rs
  show assignRanks (List.insertionSort scoreGE (rank_and_sort rs)) =
    rank_and_sort rs
  rw [List.Sorted.insertionSort_eq hsorted]
  exact assignRanks_idem _

theorem final_results_node_scores_sorted (ws : List PharmacyScoreRecord) :
    ((final_results_node ws).map
      (fun r => r.record.weighted_score)).Sorted (· ≥ ·) := by
  have h : (final_results_node ws).Pairwise scoreGE :=
    rank_and_sort_pairwise (ws.map (fun r => ⟨r, 0⟩))
  exact List.pairwise_map.mpr h

theorem final_results_node_ranks (ws : List PharmacyScoreRecord) :
    (final_results_node ws).map (fun r => r.rank) =
      List.range' 1 ws.length := by
  unfold final_results_node
  rw [rank_and_sort_ranks, List.length_map]

theorem final_results_node_length (ws : List PharmacyScoreRecord) :
    (final_results_node ws).length = ws.length := by
  unfold final_results_node rank_and_sort
  rw [assignRanks_length, List.length_insertionSort, List.length_map]

/-- C9: finalize sorts the records descending by their score column,
assigns the dense ranks 1..n, and applying the sort-and-rank step to
its own output changes nothing. -/
theorem C9_finalize_sorts_and_ranks (ws : List PharmacyScoreRecord) :
    ((final_results_node ws).map
      (fun r => r.record.weighted_score)).Sorted (· ≥ ·) ∧
    (final_results_node ws).map (fun r => r.rank) =
      List.range' 1 ws.length ∧
    rank_and_sort (final_results_node ws) = final_results_node ws :=
  ⟨final_results_node_scores_sorted ws, final_results_node_ranks ws,
   rank_and_sort_idem _⟩

theorem lookup_of_mem_nodup {β : Type} :
    ∀ (l : List (String × β)) (k : String) (v : β),
      (l.map Prod.fst).Nodup → (k, v) ∈ l → l.lookup k = some v := by
  intro l
  induction l with
  | nil =>
    intro k v _ hm
    cases hm
  | cons a t ih =>
    intro k v hnd hm
    rw [List.map_cons, List.nodup_cons] at hnd
    rcases List.mem_cons.mp hm with h | h
    · rw [← h]
      simp [List.lookup]
    · have hk : (k == a.1) = false := by
        rw [beq_eq_false_iff_ne]
        intro he
        exact hnd.1 (he ▸ List.mem_map.mpr ⟨(k, v), h, rfl⟩)
      obtain ⟨a1, a2⟩ := a
      rw [List.lookup_cons]
      simp only at hk
      rw [hk]
      exact ih k v hnd.2 h

theorem lookup_eq_none_of_not_mem_keys {β : Type} :
    ∀ (l : List (String × β)) (k : String),
      k ∉ l.map Prod.fst → l.lookup k = none := by
  intro l
  induction l with
  | nil =>
    intro k _
    rfl
  | cons a t ih =>
    intro k hk
    rw [List.map_cons] at hk
    obtain ⟨a1, a2⟩ := a
    rw [List.lookup_cons]
    have h1 : (k == a1) = false := by
      rw [beq_eq_false_iff_ne]
      intro he
      exact hk (he ▸ List.mem_cons_self a1 _)
    rw [h1]
    exact ih k (fun hm => hk (List.mem_cons_of_mem _ hm))

theorem lookup_value_unique {β : Type} (l : List (String × β)) (k : String)
    (v1 v2 : β) (hnd : (l.map Prod.fst).Nodup)
    (h1 : (k, v1) ∈ l) (h2 : (k, v2) ∈ l) : v1 = v2 := by
  have e1 := lookup_of_mem_nodup l k v1 hnd h1
  have e2 := lookup_of_mem_nodup l k v2 hnd h2
  rw [e1] at e2
  exact Option.some.inj e2

theorem run_agents_parallel_map_fst (agents : List (String × AgentFn))
    (df : Dataset) :
    (run_agents_parallel agents df).map Prod.fst = agents.map Prod.fst := by
  simp only [run_agents_parallel, List.map_map]
  rfl

/-- C7 (amended): one agent that raises on every call is recorded in
the execution-pool result map as an empty finding list; the run still
yields a non-empty, sorted, densely ranked result from the other agents
findings; but the failing agent gets no entry at all in the run-level
agent_performance insights (it is skipped, not reported with zero
findings). -/
theorem C7_failing_agent_isolation
    (agents : List (String × AgentFn)) (df : Dataset)
    (weights : List (String × ℚ))
    (badName : String) (bad : AgentFn)
    (goodName : String) (good : AgentFn) (fs : List Finding)
    (hnd : (agents.map Prod.fst).Nodup)
    (hbadMem : (badName, bad) ∈ agents)
    (hbadFail : ∀ d, ∃ e, bad d = Except.error e)
    (hgoodMem : (goodName, good) ∈ agents)
    (hgoodOk : good df = Except.ok fs)
    (hfs : fs ≠ []) :
    (run_agents_parallel agents df).lookup badName = some [] ∧
    (agent_performance (run_agents_parallel agents df)).lookup badName =
      none ∧
    final_results_node (calculate_weighted_scores weights
      (run_agents_parallel agents df) df) ≠ [] ∧
    ((final_results_node (calculate_weighted_scores weights
      (run_agents_parallel agents df) df)).map
        (fun r => r.record.weighted_score)).Sorted (· ≥ ·) ∧
    (final_results_node (calculate_weighted_scores weights
      (run_agents_parallel agents df) df)).map (fun r => r.rank) =
      List.range' 1 (calculate_weighted_scores weights
        (run_agents_parallel agents df) df).length := by
  have hfst : (run_agents_parallel agents df).map Prod.fst =
      agents.map Prod.fst := run_agents_parallel_map_fst agents df
  have hndr : ((run_agents_parallel agents df).map Prod.fst).Nodup := by
    rw [hfst]
    exact hnd
  have hbadRes : (badName, ([] : List Finding)) ∈
      run_agents_parallel agents df := by
    apply List.mem_map.mpr
    refine ⟨(badName, bad), hbadMem, ?_⟩
    obtain ⟨e, he⟩ := hbadFail df
    simp [he]
  have hgoodRes : (goodName, fs) ∈ run_agents_parallel agents df := by
    apply List.mem_map.mpr
    exact ⟨(goodName, good), hgoodMem, by simp [hgoodOk]⟩
  refine ⟨lookup_of_mem_nodup _ _ _ hndr hbadRes, ?_, ?_,
    final_results_node_scores_sorted _, final_results_node_ranks _⟩
  · apply lookup_eq_none_of_not_mem_keys
    intro hmem
    simp only [agent_performance, List.map_map, List.mem_map,
      Function.comp] at hmem
    obtain ⟨r, hr, hname⟩ := hmem
    have hrmem : r ∈ run_agents_parallel agents df :=
      List.mem_of_mem_filter hr
    have hrne : r.2 ≠ [] := by
      have hb := List.of_mem_filter hr
      simpa using hb
    apply hrne
    have hpair : (badName, r.2) ∈ run_agents_parallel agents df := by
      have : r = (badName, r.2) := by
        obtain ⟨r1, r2⟩ := r
        simp only at hname
        rw [hname]
      rw [← this]
      exact hrmem
    exact lookup_value_unique _ badName r.2 [] hndr hpair hbadRes
  · obtain ⟨f0, hf0⟩ := List.exists_mem_of_ne_nil fs hfs
    have hp : f0.pharmacy_number ∈
        all_pharmacies (run_agents_parallel agents df) := by
      unfold all_pharmacies
      rw [List.mem_dedup]
      exact List.mem_flatMap.mpr
        ⟨(goodName, fs), hgoodRes, List.mem_map.mpr ⟨f0, hf0, rfl⟩⟩
    intro hnil
    have hlen0 : (calculate_weighted_scores weights
        (run_agents_parallel agents df) df).length = 0 := by
      rw [← final_results_node_length, hnil]
      rfl
    have : all_pharmacies (run_agents_parallel agents df) = [] := by
      have := hlen0
      rw [calculate_weighted_scores, List.length_map] at this
      exact List.eq_nil_of_length_eq_zero this
    rw [this] at hp
    cases hp

/-- C7 witness: with one always-failing agent and one healthy agent,
the pool records an empty list for the failing agent, the failing agent
has no agent_performance entry, and the run produces a non-empty sorted
ranked result. -/
theorem C7_failing_agent_isolation_witness :
    (run_agents_parallel c7Agents []).lookup "network_agent" = some [] ∧
    (agent_performance (run_agents_parallel c7Agents [])).lookup
      "network_agent" = none ∧
    final_results_node (calculate_weighted_scores default_weights
      (run_agents_parallel c7Agents []) []) ≠ [] ∧
    ((final_results_node (calculate_weighted_scores default_weights
      (run_agents_parallel c7Agents []) [])).map
        (fun r => r.record.weighted_score)).Sorted (· ≥ ·) ∧
    (final_results_node (calculate_weighted_scores default_weights
      (run_agents_parallel c7Agents []) [])).map (fun r => r.rank) =
      List.range' 1 (calculate_weighted_scores default_weights
        (run_agents_parallel c7Agents []) []).length :=
  C7_failing_agent_isolation c7Agents [] default_weights
    "network_agent" badAgentFn "coverage_agent" goodAgentFn
    [⟨"PH001", 9/10, "high risk", []⟩]
    (by decide)
    (List.mem_cons_of_mem _ (List.mem_cons_self _ _))
    (fun _ => ⟨"boom", rfl⟩)
    (List.mem_cons_self _ _)
    rfl
    (by decide)

/-- C7: the claim fails on the code in one respect.  The always-failing
agent is recorded with an empty finding list in the pool results, but
`_generate_supervisor_insights` skips agents with empty result sets, so
the failing agent has no agent_performance entry at all rather than an
entry showing zero findings. -/
theorem C7_counterexample :
    (run_agents_parallel c7Agents []).lookup "network_agent" = some [] ∧
    (agent_performance (run_agents_parallel c7Agents [])).lookup
      "network_agent" = none := by
  exact ⟨rfl, rfl⟩

end WeightedScoring
